import Mathlib

/-!
# A greeting HTTP server: `app/main.go`

The program registers one handler on the pattern `/` of the default request
multiplexer, prints a banner and calls `http.ListenAndServe(":8080", nil)`:

    func main() {
        http.HandleFunc("/", func(w http.ResponseWriter, r *http.Request) {
            fmt.Fprintf(w, quote.Hello())
        })
        fmt.Println("Server listening on port 8080")
        http.ListenAndServe(":8080", nil)
    }

Go strings are byte sequences; a byte is a `Nat` (below 256 for real input).
The parts of the Go standard library that `main` calls (`fmt.Fprintf` with an
empty argument list, the default `ServeMux` holding the single pattern `/`,
`ListenAndServe`) are embedded next to `main` itself, under the names they have
in the library sources (`fmt/print.go`, `unicode/utf8/utf8.go`, `path/path.go`,
`net/http/server.go`). The process is a trace of observable events and a state;
requests and termination come from outside as inputs.
-/

namespace App

/-- A byte of a Go string. -/
abbrev Byte := Nat

/-- A Go string: a sequence of bytes. -/
abbrev GoString := List Byte

/-- The bytes of an ASCII literal. -/
def lit (s : String) : GoString := s.toList.map Char.toNat

/-! ## `unicode/utf8`: decoding and encoding one rune -/

namespace utf8

/-- The constant `utf8.RuneError`, U+FFFD. -/
def RuneError : Nat := 0xFFFD

/-- The constant `utf8.RuneSelf`: bytes below it are single-byte runes. -/
def RuneSelf : Nat := 0x80

/-- Row of the table `first` for a lead byte at or above `RuneSelf`: the size of
the sequence and the accepted range of the second byte; `none` is the entry `xx`
(an invalid lead byte). -/
def first (s0 : Byte) : Option (Nat × Nat × Nat) :=
  if s0 < 0xC2 then none
  else if s0 ≤ 0xDF then some (2, 0x80, 0xBF)
  else if s0 = 0xE0 then some (3, 0xA0, 0xBF)
  else if s0 ≤ 0xEC then some (3, 0x80, 0xBF)
  else if s0 = 0xED then some (3, 0x80, 0x9F)
  else if s0 ≤ 0xEF then some (3, 0x80, 0xBF)
  else if s0 = 0xF0 then some (4, 0x90, 0xBF)
  else if s0 ≤ 0xF3 then some (4, 0x80, 0xBF)
  else if s0 = 0xF4 then some (4, 0x80, 0x8F)
  else none

/-- The function `utf8.DecodeRuneInString`: the first rune of `s` and its width in
bytes; an invalid or short encoding gives `(RuneError, 1)`, the empty string
`(RuneError, 0)`. -/
def DecodeRuneInString (s : GoString) : Nat × Nat :=
  match s with
  | [] => (RuneError, 0)
  | s0 :: t =>
    if s0 < RuneSelf then (s0, 1)
    else
      match first s0 with
      | none => (RuneError, 1)
      | some (sz, lo, hi) =>
        if s.length < sz then (RuneError, 1)
        else
          match t with
          | [] => (RuneError, 1)
          | s1 :: t1 =>
            if s1 < lo ∨ hi < s1 then (RuneError, 1)
            else if sz ≤ 2 then ((s0 % 32) * 64 + s1 % 64, 2)
            else
              match t1 with
              | [] => (RuneError, 1)
              | s2 :: t2 =>
                if s2 < 0x80 ∨ 0xBF < s2 then (RuneError, 1)
                else if sz ≤ 3 then ((s0 % 16) * 4096 + (s1 % 64) * 64 + s2 % 64, 3)
                else
                  match t2 with
                  | [] => (RuneError, 1)
                  | s3 :: _ =>
                    if s3 < 0x80 ∨ 0xBF < s3 then (RuneError, 1)
                    else ((s0 % 8) * 262144 + (s1 % 64) * 4096 + (s2 % 64) * 64 + s3 % 64, 4)

/-- The function `utf8.AppendRune` on an empty buffer: the UTF-8 encoding of `r`;
a surrogate or a value above U+10FFFF is encoded as `RuneError`. -/
def EncodeRune (r : Nat) : GoString :=
  if r < 0x80 then [r]
  else if r < 0x800 then [0xC0 + r / 64, 0x80 + r % 64]
  else if 0x10FFFF < r ∨ (0xD800 ≤ r ∧ r ≤ 0xDFFF) then [0xEF, 0xBF, 0xBD]
  else if r < 0x10000 then [0xE0 + r / 4096, 0x80 + (r / 64) % 64, 0x80 + r % 64]
  else [0xF0 + r / 262144, 0x80 + (r / 4096) % 64, 0x80 + (r / 64) % 64, 0x80 + r % 64]

end utf8

/-! ## `fmt`: `Fprintf` called with a format and no arguments -/

namespace fmt

/-- The function `tooLarge` of `fmt/print.go`. -/
def tooLarge (x : Nat) : Bool := decide (x > 1000000)

/-- The loop of `parsenum`: reads decimal digits of `s` (the part of the format
from the current index up to `end`), carrying `num`, `isnum` and the count of
bytes read; `none` is the overflow exit. -/
def parsenumLoop : GoString → Nat → Bool → Nat → Option (Nat × Bool × Nat)
  | [], num, isnum, k => some (num, isnum, k)
  | c :: t, num, isnum, k =>
    if 48 ≤ c ∧ c ≤ 57 then
      if tooLarge num then none
      else parsenumLoop t (num * 10 + (c - 48)) true (k + 1)
    else some (num, isnum, k)

/-- The function `parsenum(s, start, end)`: the number read from `s[start:end]`,
whether one was read, and the index after it. -/
def parsenum (s : GoString) (start stop : Nat) : Nat × Bool × Nat :=
  if start ≥ stop then (0, false, stop)
  else
    match parsenumLoop ((s.take stop).drop start) 0 false 0 with
    | none => (0, false, stop)
    | some (num, isnum, k) => (num, isnum, start + k)

/-- The search for the closing bracket in `parseArgNumber`: the least index
`i ≥ 1` with `format[i] == ']'`. -/
def closingBracket (format : GoString) : Option Nat :=
  match (format.drop 1).indexOf? 93 with
  | none => none
  | some j => some (j + 1)

/-- The function `parseArgNumber(format)`, where `format` starts at a `[`: the
zero-based argument index, the width of the bracketed text and whether it is
well formed. The index is an `Int`: `[0]` gives `-1`. -/
def parseArgNumber (format : GoString) : Int × Nat × Bool :=
  if format.length < 3 then (0, 1, false)
  else
    match closingBracket format with
    | none => (0, 1, false)
    | some i =>
      match parsenum format 1 i with
      | (width, ok, newi) =>
        if !ok || newi != i then (0, i + 1, false)
        else ((width : Int) - 1, i + 1, true)

/-- The method `argNumber(argNum, format, i, numArgs)`: reads an explicit argument
index `[n]` at `format[i]`, if there is one. Returns the new argument number, the
new index, whether an index was found, and the printer field `goodArgNum`
(passed in as `good`), which the method clears on a bad index. -/
def argNumber (argNum : Nat) (format : GoString) (i numArgs : Nat) (good : Bool) :
    Nat × Nat × Bool × Bool :=
  if format.length ≤ i ∨ format.getD i 0 ≠ 91 then (argNum, i, false, good)
  else
    match parseArgNumber (format.drop i) with
    | (index, wid, ok) =>
      if ok ∧ 0 ≤ index ∧ index < (numArgs : Int) then (index.toNat, i + wid, true, good)
      else (argNum, i + wid, ok, false)

/-- The constant `percentBangString`. -/
def percentBangString : GoString := lit "%!"
/-- The constant `missingString`. -/
def missingString : GoString := lit "(MISSING)"
/-- The constant `badIndexString`. -/
def badIndexString : GoString := lit "(BADINDEX)"
/-- The constant `noVerbString`. -/
def noVerbString : GoString := lit "%!(NOVERB)"
/-- The constant `badWidthString`. -/
def badWidthString : GoString := lit "%!(BADWIDTH)"
/-- The constant `badPrecString`. -/
def badPrecString : GoString := lit "%!(BADPREC)"

/-- The method `badArgNum(verb)`: what it appends to the buffer. -/
def badArgNum (verb : Nat) : GoString :=
  percentBangString ++ utf8.EncodeRune verb ++ badIndexString

/-- The method `missingArg(verb)`: what it appends to the buffer. -/
def missingArg (verb : Nat) : GoString :=
  percentBangString ++ utf8.EncodeRune verb ++ missingString

/-- The flag bytes `#`, `0`, `+`, `-` and space, skipped by the flag loop of
`doPrintf`. With no arguments the fast path of that loop (`argNum < len(a)`) is
never taken, so every other byte leaves the loop. -/
def isFlag (c : Byte) : Bool := c = 35 || c = 48 || c = 43 || c = 45 || c = 32

/-- The block `Do we have width?` of `doPrintf` for an empty argument list, at
index `i`: the bytes appended to the buffer, the new index, `afterIndex` and
`goodArgNum`. A `*` finds no argument (`intFromArg`), so the width is not present
and `badWidthString` is written. -/
def doWidth (format : GoString) (i : Nat) (afterIndex good : Bool) :
    GoString × Nat × Bool × Bool :=
  if i < format.length ∧ format.getD i 0 = 42 then (badWidthString, i + 1, false, good)
  else
    match parsenum format i format.length with
    | (_, widPresent, newi) =>
      ([], newi, afterIndex, if afterIndex && widPresent then false else good)

/-- The block `Do we have precision?` of `doPrintf` for an empty argument list, at
index `i`: the bytes appended to the buffer, the argument number, the new index,
`afterIndex` and `goodArgNum`. The block is entered on a `.` that is not the last
byte of the format (`i+1 < end`). -/
def doPrecision (format : GoString) (argNum i : Nat) (afterIndex good : Bool) :
    GoString × Nat × Nat × Bool × Bool :=
  if i + 1 < format.length ∧ format.getD i 0 = 46 then
    match argNumber argNum format (i + 1) 0 (if afterIndex then false else good) with
    | (argNum, i, afterIndex, good) =>
      if i < format.length ∧ format.getD i 0 = 42 then
        (badPrecString, argNum, i + 1, false, good)
      else
        match parsenum format i format.length with
        | (_, _, newi) => ([], argNum, newi, afterIndex, good)
  else ([], argNum, i, afterIndex, good)

/-- The verb at `format[i]` and its size in bytes: the byte itself, or the rune
decoded there when the byte is not below `utf8.RuneSelf`. -/
def verbAt (format : GoString) (i : Nat) : Nat × Nat :=
  if format.getD i 0 ≥ utf8.RuneSelf then utf8.DecodeRuneInString (format.drop i)
  else (format.getD i 0, 1)

/-- The end of a pass of `formatLoop`, at index `i` with `out` the bytes the pass
has appended so far: without a verb `noVerbString` and `break`; else the verb is
decoded and printed: `%` for the verb `%`, `badArgNum` after a bad argument index,
and `missingArg` otherwise, as there is no argument. -/
def doVerbRune (format : GoString) (i : Nat) (good : Bool) (out : GoString) :
    GoString × Option Nat :=
  if i ≥ format.length then (out ++ noVerbString, none)
  else
    match verbAt format i with
    | (verb, size) =>
      if verb = 37 then (out ++ [37], some (i + size))
      else if !good then (out ++ badArgNum verb, some (i + size))
      else (out ++ missingArg verb, some (i + size))

/-- The flag loop of `doPrintf` for an empty argument list, from index `i`: the
index of the first byte that is not a flag. -/
def skipFlags (format : GoString) (i : Nat) : Nat :=
  i + ((format.drop i).takeWhile isFlag).length

/-- One pass of the body of `formatLoop` in `doPrintf` after a `%`, for an empty
argument list: `i` is the index after the `%`. The pass reads flags, an argument
index, the width, the precision, an argument index again and the verb. Returns
the bytes appended to the buffer and the index at which the loop goes on, `none`
when the loop is left with `break`. -/
def doVerb (format : GoString) (i : Nat) : GoString × Option Nat :=
  match argNumber 0 format (skipFlags format i) 0 true with
  | (argNum, i, afterIndex, good) =>
    match doWidth format i afterIndex good with
    | (out1, i, afterIndex, good) =>
      match doPrecision format argNum i afterIndex good with
      | (out2, argNum, i, afterIndex, good) =>
        if !afterIndex then
          match argNumber argNum format i 0 good with
          | (_, i, _, good) => doVerbRune format i good (out1 ++ out2)
        else doVerbRune format i good (out1 ++ out2)

/-- The loop `formatLoop` of `doPrintf` for an empty argument list, from index
`i` with buffer `buf`. Every pass moves `i` forward, so `format.length + 1`
passes are enough; the first argument bounds the number of passes. -/
def formatLoop (format : GoString) : Nat → Nat → GoString → GoString
  | 0, _, buf => buf
  | fuel + 1, i, buf =>
    if i ≥ format.length then buf
    else
      let run := (format.drop i).takeWhile (fun c => c != 37)
      let buf := buf ++ run
      let i := i + run.length
      if i ≥ format.length then buf
      else
        match doVerb format (i + 1) with
        | (out, none) => buf ++ out
        | (out, some j) => formatLoop format fuel j (buf ++ out)

/-- The method `doPrintf(format, a)` with `a` empty: the contents of the printer
buffer afterwards. -/
def doPrintf (format : GoString) : GoString :=
  formatLoop format (format.length + 1) 0 []

end fmt

/-! ## `path`: lexical cleaning of a slash-separated path -/

namespace path

/-- The inner loop of the `..` case of `Clean`: from write index `w` (already
decremented once) moves back while `w > dotdot` and `out[w]` is not a slash. -/
def backtrack (out : GoString) (dotdot : Nat) : Nat → Nat
  | 0 => 0
  | w + 1 =>
    if w + 1 > dotdot ∧ out.getD (w + 1) 0 ≠ 47 then backtrack out dotdot w else w + 1

/-- The main loop of `Clean`: `r` is the index of the next byte of `path` to
process, `out` the bytes written so far (its length is the write index `w` of the
buffer) and `dotdot` the index where `..` must stop. Every pass moves `r`
forward; the first argument bounds the number of passes. -/
def cleanLoop (path : GoString) (rooted : Bool) : Nat → Nat → GoString → Nat → GoString
  | 0, _, out, _ => out
  | fuel + 1, r, out, dotdot =>
    let n := path.length
    if r ≥ n then out
    else
      let c0 := path.getD r 0
      let c1 := path.getD (r + 1) 0
      let c2 := path.getD (r + 2) 0
      if c0 = 47 then
        -- empty path element
        cleanLoop path rooted fuel (r + 1) out dotdot
      else if c0 = 46 ∧ (r + 1 = n ∨ c1 = 47) then
        -- . element
        cleanLoop path rooted fuel (r + 1) out dotdot
      else if c0 = 46 ∧ c1 = 46 ∧ (r + 2 = n ∨ c2 = 47) then
        -- .. element: remove to last /
        if out.length > dotdot then
          cleanLoop path rooted fuel (r + 2)
            (out.take (backtrack out dotdot (out.length - 1))) dotdot
        else if !rooted then
          let out := (if out.length > 0 then out ++ [47] else out) ++ [46, 46]
          cleanLoop path rooted fuel (r + 2) out out.length
        else cleanLoop path rooted fuel (r + 2) out dotdot
      else
        -- real path element: add slash if needed, copy element
        let out :=
          if (rooted ∧ out.length ≠ 1) ∨ (!rooted ∧ out.length ≠ 0) then out ++ [47] else out
        let elem := (path.drop r).takeWhile (fun c => c != 47)
        cleanLoop path rooted fuel (r + elem.length) (out ++ elem) dotdot

/-- The function `path.Clean`: the shortest path name equivalent to `path` by
purely lexical processing. -/
def Clean (path : GoString) : GoString :=
  if path = [] then lit "."
  else
    let rooted := decide (path.getD 0 0 = 47)
    let out :=
      if rooted then cleanLoop path rooted (path.length + 1) 1 [47] 1
      else cleanLoop path rooted (path.length + 1) 0 [] 0
    if out.length = 0 then lit "." else out

end path

/-! ## `net/http`: requests, the response writer of the server, the mux -/

namespace http

/-- A Go `error` value, by its message. -/
abbrev GoError := GoString

/-- The fields of `http.Request` that the server and the mux look at. -/
structure Request where
  /-- The field `Method`. -/
  Method : GoString
  /-- The field `RequestURI`: the request target as sent by the client. -/
  RequestURI : GoString
  /-- The field `URL.Path`. -/
  Path : GoString
  /-- The field `URL.RawQuery`. -/
  RawQuery : GoString
  /-- The field `Host`. -/
  Host : GoString
  /-- The request body. -/
  Body : GoString
deriving DecidableEq, Repr

/-- How a call of a Go function ends: it returns its results, or it panics with a
value. -/
inductive Outcome (α : Type) where
  /-- The call returns `a`. -/
  | returned (a : α)
  /-- The call panics with the value `v`. -/
  | panicked (v : GoString)
deriving DecidableEq, Repr

/-- The interface `http.ResponseWriter` over a writer state `W`: its three
methods. `Write` gives the new state and how the call ends: it returns the count
of bytes written and the error, `none` for `nil`, or it panics. -/
structure ResponseWriter (W : Type) where
  /-- The method `Header()`. -/
  Header : W → List (GoString × GoString)
  /-- The method `Write([]byte) (int, error)`. -/
  Write : W → GoString → W × Outcome (Nat × Option GoError)
  /-- The method `WriteHeader(statusCode int)`. -/
  WriteHeader : W → Nat → W

/-- The state of the server's own response writer (`http.response`) on a healthy
connection that is not hijacked. -/
structure response where
  /-- The method of the request being answered (`w.req.Method`). -/
  reqMethod : GoString
  /-- The field `wroteHeader`. -/
  wroteHeader : Bool
  /-- The field `status`. -/
  status : Nat
  /-- The header map of the handler. -/
  header : List (GoString × GoString)
  /-- The body bytes handed to the connection. -/
  body : GoString
deriving DecidableEq, Repr

/-- The constant `StatusOK`. -/
def StatusOK : Nat := 200
/-- The constant `StatusMovedPermanently`. -/
def StatusMovedPermanently : Nat := 301
/-- The constant `StatusBadRequest`. -/
def StatusBadRequest : Nat := 400
/-- The constant `StatusNotFound`. -/
def StatusNotFound : Nat := 404

/-- The error `ErrBodyNotAllowed`. -/
def ErrBodyNotAllowed : GoError :=
  lit "http: request method or response status code does not allow body"

/-- The function `bodyAllowedForStatus`. -/
def bodyAllowedForStatus (status : Nat) : Bool :=
  if 100 ≤ status ∧ status ≤ 199 then false
  else if status = 204 then false
  else if status = 304 then false
  else true

namespace response

/-- The response writer handed to the handler for request `r`. -/
def new (r : Request) : response :=
  { reqMethod := r.Method, wroteHeader := false, status := 0, header := [], body := [] }

/-- The method `(*response).WriteHeader`: the first call fixes the status, a later
call is ignored. -/
def WriteHeader (w : response) (code : Nat) : response :=
  if w.wroteHeader then w else { w with wroteHeader := true, status := code }

/-- The method `(*response).Write`: writes the header with `StatusOK` if none was
written; then an empty write does nothing, a status that allows no body gives
`ErrBodyNotAllowed`, the writes of a `HEAD` request are eaten, and any other data
is appended to the body. The method always returns. -/
def Write (w : response) (data : GoString) : response × Outcome (Nat × Option GoError) :=
  let w := if !w.wroteHeader then w.WriteHeader StatusOK else w
  if data.length = 0 then (w, Outcome.returned (0, none))
  else if !bodyAllowedForStatus w.status then (w, Outcome.returned (0, some ErrBodyNotAllowed))
  else if w.reqMethod = lit "HEAD" then (w, Outcome.returned (data.length, none))
  else ({ w with body := w.body ++ data }, Outcome.returned (data.length, none))

/-- The method `(*response).finishRequest`, as far as the status goes: a handler
that wrote nothing gets `StatusOK`. -/
def finishRequest (w : response) : response :=
  if !w.wroteHeader then w.WriteHeader StatusOK else w

/-- The server's `response` as an `http.ResponseWriter`. -/
def writer : ResponseWriter response :=
  { Header := fun w => w.header, Write := Write, WriteHeader := WriteHeader }

end response

/-- The type `http.HandlerFunc`, run by the server on its own response writer. -/
abbrev HandlerFunc := response → Request → response

/-- The type `muxEntry`: a registered handler and its pattern. -/
structure muxEntry where
  /-- The handler. -/
  h : HandlerFunc
  /-- The pattern it was registered on. -/
  pattern : GoString

/-- The type `http.ServeMux`, for patterns that are rooted paths, without method,
host or wildcard. `main` registers the single pattern `/` and no host-specific
pattern, so the flag `hosts` stays false; the lookups keyed by host plus path,
which only a host-specific pattern answers, are left out. -/
structure ServeMux where
  /-- The map `m` from pattern to entry, as an association list. -/
  m : List muxEntry
  /-- The slice `es`: the entries whose pattern ends in a slash, longest first. -/
  es : List muxEntry

/-- The function `cleanPath` of `net/http`: the canonical path for `p`, without
`.` and `..` elements and repeated slashes, keeping a trailing slash. -/
def cleanPath (p : GoString) : GoString :=
  if p = [] then lit "/"
  else
    let p := if p.getD 0 0 ≠ 47 then 47 :: p else p
    let np := path.Clean p
    if p.getD (p.length - 1) 0 = 47 ∧ np ≠ lit "/" then
      if p.length = np.length + 1 ∧ np.isPrefixOf p then p else np ++ [47]
    else np

/-- The function `appendSorted`: inserts `e` before the first entry with a shorter
pattern. -/
def appendSorted : List muxEntry → muxEntry → List muxEntry
  | [], e => [e]
  | x :: es, e =>
    if x.pattern.length < e.pattern.length then e :: x :: es else x :: appendSorted es e

namespace ServeMux

/-- The variable `DefaultServeMux` at program start: no pattern registered. -/
def Default : ServeMux := { m := [], es := [] }

/-- The method `(*ServeMux).Handle`: `none` where Go panics (empty pattern or a
pattern registered twice). -/
def Handle (mux : ServeMux) (pattern : GoString) (h : HandlerFunc) : Option ServeMux :=
  if pattern = [] then none
  else if mux.m.any (fun e => e.pattern = pattern) then none
  else
    let e : muxEntry := { h := h, pattern := pattern }
    some { m := e :: mux.m
           es := if pattern.getD (pattern.length - 1) 0 = 47 then appendSorted mux.es e
                 else mux.es }

/-- The method `(*ServeMux).match`: an exact match first, then the longest
registered pattern ending in a slash that `path` starts with. -/
def matchPath (mux : ServeMux) (path : GoString) : Option muxEntry :=
  match mux.m.find? (fun e => e.pattern = path) with
  | some e => some e
  | none => mux.es.find? (fun e => e.pattern.isPrefixOf path)

/-- The method `shouldRedirectRLocked`: `path` is not registered and `path/` is. -/
def shouldRedirectRLocked (mux : ServeMux) (path : GoString) : Bool :=
  if mux.m.any (fun e => e.pattern = path) then false
  else if path.length = 0 then false
  else if mux.m.any (fun e => e.pattern = path ++ [47]) then
    path.getD (path.length - 1) 0 ≠ 47
  else false

end ServeMux

/-- What `(*ServeMux).Handler` returns for a request. -/
inductive Route where
  /-- A registered handler. -/
  | registered (e : muxEntry)
  /-- The handler `RedirectHandler(u.String(), StatusMovedPermanently)` for the URL
  `u` with the given `Path` and `RawQuery`. -/
  | redirect (path rawQuery : GoString)
  /-- The handler `NotFoundHandler()`. -/
  | notFound

/-- The answer of the server to one request. -/
inductive Reply where
  /-- A registered handler ran on a new response writer; `w` is the writer after
  `finishRequest`. -/
  | handled (w : response)
  /-- The reply of `RedirectHandler`: status `code`, `Location` the URL with the
  given path and query. -/
  | redirect (code : Nat) (path rawQuery : GoString)
  /-- The reply of `NotFoundHandler`: status 404. -/
  | notFound
  /-- The mux on the request target `*`: status 400. -/
  | badRequest
  /-- The reply of `globalOptionsHandler` to `OPTIONS *`: status 200, empty body. -/
  | options
deriving DecidableEq, Repr

namespace Reply

/-- The status code of the reply. -/
def status : Reply → Nat
  | handled w => w.status
  | redirect code _ _ => code
  | notFound => StatusNotFound
  | badRequest => StatusBadRequest
  | options => StatusOK

end Reply

namespace ServeMux

/-- The method `(*ServeMux).handler(host, path)` without host patterns. -/
def handler (mux : ServeMux) (path : GoString) : Route :=
  match mux.matchPath path with
  | some e => Route.registered e
  | none => Route.notFound

/-- The method `(*ServeMux).Handler(r)`: a `CONNECT` request is matched as it is;
any other request has its path cleaned and is redirected to the cleaned path if
that differs from the path it carries. -/
def Handler (mux : ServeMux) (r : Request) : Route :=
  if r.Method = lit "CONNECT" then
    if mux.shouldRedirectRLocked r.Path then Route.redirect (r.Path ++ [47]) r.RawQuery
    else mux.handler r.Path
  else
    let path := cleanPath r.Path
    if mux.shouldRedirectRLocked path then Route.redirect (path ++ [47]) r.RawQuery
    else if path ≠ r.Path then Route.redirect path r.RawQuery
    else mux.handler r.Path

/-- The method `(*ServeMux).ServeHTTP`: the request target `*` is a bad request;
otherwise the handler found for the request serves it. -/
def ServeHTTP (mux : ServeMux) (r : Request) : Reply :=
  if r.RequestURI = lit "*" then Reply.badRequest
  else
    match mux.Handler r with
    | Route.registered e => Reply.handled (e.h (response.new r) r).finishRequest
    | Route.redirect path rawQuery => Reply.redirect StatusMovedPermanently path rawQuery
    | Route.notFound => Reply.notFound

end ServeMux

/-- The warning that `serverHandler.ServeHTTP` logs for a query with a semicolon. -/
def semicolonWarning : GoString :=
  lit "http: URL query contains semicolon, which is no longer a supported separator; parts of the query may be stripped when parsed; see golang.org/issue/25192"

/-- The method `serverHandler.ServeHTTP` of a server whose `Handler` field is nil:
the default mux serves, except for `OPTIONS *`; when the raw query contains a
semicolon, the deferred function logs `semicolonWarning` to the error log of the
server, as no handler here allows semicolons. Returns the reply and the lines
logged. -/
def serverHandler (defaultMux : ServeMux) (r : Request) : Reply × List GoString :=
  (if r.RequestURI = lit "*" ∧ r.Method = lit "OPTIONS" then Reply.options
   else defaultMux.ServeHTTP r,
   if 59 ∈ r.RawQuery then [semicolonWarning] else [])

end http

namespace fmt

/-- The function `fmt.Fprintf(w, format)` with no further argument: formats into
the printer buffer, hands the buffer to one call of `w.Write` and returns what
that call returns; a panic of `Write` is not recovered. -/
def Fprintf {W : Type} (write : W → GoString → W × http.Outcome (Nat × Option http.GoError))
    (w : W) (format : GoString) : W × http.Outcome (Nat × Option http.GoError) :=
  write w (doPrintf format)

/-- The function `fmt.Println(s)` for one string operand: the bytes it writes to
standard output. -/
def Println (s : GoString) : GoString := s ++ [10]

end fmt

namespace quote

/-- Modelled from the spec: the function `quote.Hello` of the dependency
`rsc.io/quote`, which is not part of the repository; the spec gives its result as
the text `Hello, world.`. -/
def Hello : GoString := lit "Hello, world."

end quote

/-! ## The operating system as `main` sees it -/

/-- The environment a process starts in. -/
structure Env where
  /-- The command-line arguments. -/
  args : List GoString
  /-- The environment variables. -/
  environ : List (GoString × GoString)
  /-- The addresses that already have a listener. -/
  inUse : List GoString
  /-- The addresses this process has no permission to bind. -/
  denied : List GoString
deriving DecidableEq, Repr

namespace net

/-- The error of `net.Listen` on an address that has a listener. -/
def addrInUse (addr : GoString) : http.GoError :=
  lit "listen tcp " ++ addr ++ lit ": bind: address already in use"

/-- The error of `net.Listen` on an address the process may not bind. -/
def permissionDenied (addr : GoString) : http.GoError :=
  lit "listen tcp " ++ addr ++ lit ": bind: permission denied"

/-- The function `net.Listen("tcp", addr)`: an error if the address may not be
bound or is in use, else the environment in which the address has a listener. -/
def Listen (env : Env) (addr : GoString) : Except http.GoError Env :=
  if addr ∈ env.denied then Except.error (permissionDenied addr)
  else if addr ∈ env.inUse then Except.error (addrInUse addr)
  else Except.ok { env with inUse := addr :: env.inUse }

end net

/-! ## The program -/

/-- Modelled from the spec: the two states of the server process that the state
machine of the spec names. What runs in them, the accept loop of `(*Server).Serve`
and the end of the process, is library and platform code outside the repository. -/
inductive State where
  /-- The listener is bound and the accept loop of `Serve` runs. -/
  | Listening
  /-- The process has ended. -/
  | Terminated
deriving DecidableEq, Repr

/-- What the process does that can be observed, in the order it happens. -/
inductive Event where
  /-- A call `http.HandleFunc(pattern, ...)`. -/
  | HandleFunc (pattern : GoString)
  /-- Bytes written to standard output. -/
  | Stdout (bytes : GoString)
  /-- Bytes written to standard error. -/
  | Stderr (bytes : GoString)
  /-- A line written to the error log of the server, which goes to standard error;
  `msg` is the line without the date and time that the `log` package puts first. -/
  | Log (msg : GoString)
  /-- A call `net.Listen("tcp", addr)` and the error it returned, if any. -/
  | Listen (addr : GoString) (err : Option http.GoError)
  /-- A request served and the reply to it. -/
  | Served (r : http.Request) (reply : http.Reply)
  /-- The end of the process with an exit code. -/
  | Exit (code : Nat)
deriving DecidableEq, Repr

/-- The server process. -/
structure Process where
  /-- The variable `http.DefaultServeMux`. -/
  mux : http.ServeMux
  /-- The events so far, oldest first. -/
  trace : List Event
  /-- The state of the process. -/
  state : State
  /-- The exit code, once the process has ended. -/
  exitCode : Option Nat
  /-- The environment, as the process has left it. -/
  env : Env

/-- The function literal that `main` registers: `fmt.Fprintf(w, quote.Hello())`,
with the result of `Fprintf` discarded. `hello` is what `quote.Hello()` returns,
`rw` the method table of the writer `w`; the request is not used. Gives the
writer after the call and how the call ends: the literal returns when `Fprintf`
returns, whatever count and error that returns, and it panics when `Fprintf`
panics, as it recovers nothing. -/
def handlerCall (hello : GoString) {W : Type} (rw : http.ResponseWriter W) (w : W)
    (_r : http.Request) : W × http.Outcome Unit :=
  match fmt.Fprintf rw.Write w hello with
  | (w1, http.Outcome.returned _) => (w1, http.Outcome.returned ())
  | (w1, http.Outcome.panicked v) => (w1, http.Outcome.panicked v)

/-- The writer as the function literal that `main` registers leaves it. -/
def handler (hello : GoString) {W : Type} (rw : http.ResponseWriter W) (w : W)
    (r : http.Request) : W :=
  (handlerCall hello rw w r).1

/-- The pattern that `main` registers the handler on. -/
def pattern : GoString := lit "/"

/-- The line that `main` prints. -/
def banner : GoString := lit "Server listening on port 8080"

/-- The address that `main` passes to `ListenAndServe`. -/
def addr : GoString := lit ":8080"

/-- The function `http.ListenAndServe(addr, nil)` up to the point where it either
returns or blocks in the accept loop: `Except.error err` is the error it returns
when `net.Listen` fails, `Except.ok env` the environment in which it serves. -/
def ListenAndServe (env : Env) (addr : GoString) : Except http.GoError Env :=
  net.Listen env addr

/-- The function `main`, run in `env` until it returns or blocks serving:
registers the handler, prints the banner, calls `ListenAndServe` and, when that
returns, returns itself without looking at the error, which ends the process with
exit code 0. -/
def main (hello : GoString) (env : Env) : Process :=
  match http.ServeMux.Default.Handle pattern (handler hello http.response.writer) with
  | none =>
    -- a panic in `HandleFunc`: the runtime reports it and exits with code 2
    { mux := http.ServeMux.Default
      trace := [Event.Stderr (lit "panic: http: invalid pattern"), Event.Exit 2]
      state := State.Terminated, exitCode := some 2, env := env }
  | some mux =>
    match ListenAndServe env addr with
    | Except.error err =>
      { mux := mux
        trace := [Event.HandleFunc pattern, Event.Stdout (fmt.Println banner),
                  Event.Listen addr (some err), Event.Exit 0]
        state := State.Terminated, exitCode := some 0, env := env }
    | Except.ok env1 =>
      { mux := mux
        trace := [Event.HandleFunc pattern, Event.Stdout (fmt.Println banner),
                  Event.Listen addr none]
        state := State.Listening, exitCode := none, env := env1 }

/-- Modelled from the spec: what can happen to a running process from outside. The
spec names requests and the termination of the process (signal, crash or
shutdown by the platform); neither is code of the repository. -/
inductive Input where
  /-- A request arrives on the listener. -/
  | request (r : http.Request)
  /-- The platform ends the process (signal or crash) with the exit status `code`;
  `dump` is what the runtime writes to standard error on the way, such as the
  goroutine dump on `SIGQUIT`, empty for a plain kill. -/
  | terminate (code : Nat) (dump : GoString)
deriving DecidableEq, Repr

/-- Modelled from the spec: one step of the state machine of the spec, over the
accept loop of `(*Server).Serve`, which is library code outside the repository.
In state `Listening` a request is served by the server handler on the default
mux, what that logs goes to the trace before the reply, and the process keeps
listening; termination writes the dump of the runtime and ends the process; a
terminated process does nothing. -/
def step (p : Process) (i : Input) : Process :=
  match p.state, i with
  | State.Terminated, _ => p
  | State.Listening, Input.request r =>
    { p with trace := p.trace ++ (http.serverHandler p.mux r).2.map Event.Log
                        ++ [Event.Served r (http.serverHandler p.mux r).1] }
  | State.Listening, Input.terminate code dump =>
    { p with trace := p.trace ++ [Event.Stderr dump, Event.Exit code],
             state := State.Terminated, exitCode := some code }

/-- Modelled from the spec: the process after a sequence of inputs. -/
def run (p : Process) (inputs : List Input) : Process := inputs.foldl step p

/-- Modelled from the spec: the reply of the process to request `r`, if it serves
it, which it does in state `Listening` only. -/
def reply (p : Process) (r : http.Request) : Option http.Reply :=
  match p.state with
  | State.Listening => some (http.serverHandler p.mux r).1
  | State.Terminated => none

/-- The requests among the inputs that arrive before the first termination. -/
def arrivals : List Input → List http.Request
  | [] => []
  | Input.request r :: t => r :: arrivals t
  | Input.terminate _ _ :: _ => []

/-- Whether a termination is among the inputs. -/
def terminates : List Input → Bool
  | [] => false
  | Input.request _ :: t => terminates t
  | Input.terminate _ _ :: _ => true

/-- The bytes written to standard output in a trace. -/
def stdout : List Event → GoString
  | [] => []
  | Event.Stdout b :: t => b ++ stdout t
  | _ :: t => stdout t

/-- The bytes written to standard error in a trace, the log lines without their
date and time. -/
def stderr : List Event → GoString
  | [] => []
  | Event.Stderr b :: t => b ++ stderr t
  | Event.Log msg :: t => msg ++ [10] ++ stderr t
  | _ :: t => stderr t

/-- The addresses of the bind attempts in a trace. -/
def binds : List Event → List GoString
  | [] => []
  | Event.Listen a _ :: t => a :: binds t
  | _ :: t => binds t

/-- The requests served in a trace. -/
def served : List Event → List http.Request
  | [] => []
  | Event.Served r _ :: t => r :: served t
  | _ :: t => served t

/-- A plain request: method, path and body, on a host, with the request target equal
to the path and no query. -/
def mkRequest (method path body : GoString) : http.Request :=
  { Method := method, RequestURI := path, Path := path, RawQuery := [],
    Host := lit "localhost:8080", Body := body }

/-! ## Example environments and writers -/

/-- The environment of the free port used in the examples. -/
def freeEnv : Env := { args := [], environ := [], inUse := [], denied := [] }

/-- An environment in which the address of the server already has a listener. -/
def busyEnv : Env := { args := [], environ := [], inUse := [lit ":8080"], denied := [] }

/-- A response writer on a broken connection: `Write` writes nothing and returns an
error. -/
def brokenWriter : http.ResponseWriter Unit :=
  { Header := fun _ => []
    Write := fun w _ => (w, http.Outcome.returned (0, some (lit "write tcp: broken pipe")))
    WriteHeader := fun w _ => w }

/-- A response writer whose `Write` panics. -/
def panickingWriter : http.ResponseWriter Unit :=
  { Header := fun _ => []
    Write := fun w _ => (w, http.Outcome.panicked (lit "write on a closed writer"))
    WriteHeader := fun w _ => w }

/-! ## Lemmas on the library functions -/

theorem fmt.parsenum_index (s : GoString) (start stop : Nat) :
    start ≤ (fmt.parsenum s start stop).2.2 ∨ (fmt.parsenum s start stop).2.2 = stop := by
  unfold fmt.parsenum
  split
  · exact Or.inr rfl
  · split
    · exact Or.inr rfl
    · exact Or.inl (Nat.le_add_right _ _)

theorem fmt.argNumber_index (argNum : Nat) (format : GoString) (i n : Nat) (good : Bool) :
    i ≤ (fmt.argNumber argNum format i n good).2.1 := by
  unfold fmt.argNumber
  split
  · exact Nat.le_refl _
  · split
    split
    · exact Nat.le_add_right _ _
    · exact Nat.le_add_right _ _

theorem fmt.doWidth_index (format : GoString) (i : Nat) (afterIndex good : Bool) :
    i ≤ (fmt.doWidth format i afterIndex good).2.1
      ∨ (fmt.doWidth format i afterIndex good).2.1 = format.length := by
  unfold fmt.doWidth
  split
  · exact Or.inl (Nat.le_add_right _ _)
  · have := fmt.parsenum_index format i format.length
    split
    next a b c hp =>
    rw [hp] at this
    exact this

theorem fmt.doPrecision_index (format : GoString) (argNum i : Nat) (afterIndex good : Bool) :
    i ≤ (fmt.doPrecision format argNum i afterIndex good).2.2.1
      ∨ (fmt.doPrecision format argNum i afterIndex good).2.2.1 = format.length := by
  unfold fmt.doPrecision
  split
  · have h1 := fmt.argNumber_index argNum format (i + 1) 0 (if afterIndex then false else good)
    split
    next a j c d ha =>
    rw [ha] at h1
    simp only [] at h1
    split
    · exact Or.inl (by simp only []; omega)
    · have h2 := fmt.parsenum_index format j format.length
      split
      next x y z hp =>
      rw [hp] at h2
      simp only [] at h2 ⊢
      rcases h2 with h2 | h2
      · exact Or.inl (by omega)
      · exact Or.inr h2
  · exact Or.inl (Nat.le_refl _)

theorem fmt.doVerbRune_index (format : GoString) (i : Nat) (good : Bool) (out o : GoString)
    (j : Nat) (h : fmt.doVerbRune format i good out = (o, some j)) :
    i < format.length ∧ i ≤ j := by
  unfold fmt.doVerbRune at h
  split at h
  · cases h
  · next hlt =>
    refine ⟨by omega, ?_⟩
    generalize fmt.verbAt format i = vs at h
    obtain ⟨verb, size⟩ := vs
    simp only [] at h
    split at h
    · have hj := Option.some.inj (Prod.mk.inj h).2
      omega
    · split at h
      · have hj := Option.some.inj (Prod.mk.inj h).2
        omega
      · have hj := Option.some.inj (Prod.mk.inj h).2
        omega

/-- A pass of `formatLoop` that does not leave the loop goes on at or after the
index it started from. -/
theorem fmt.doVerb_index (format : GoString) (s : Nat) (o : GoString) (j : Nat)
    (h : fmt.doVerb format s = (o, some j)) : s ≤ j := by
  unfold fmt.doVerb at h
  have h0 : s ≤ fmt.skipFlags format s := Nat.le_add_right _ _
  have h1 := fmt.argNumber_index 0 format (fmt.skipFlags format s) 0 true
  generalize fmt.argNumber 0 format (fmt.skipFlags format s) 0 true = A at h h1
  obtain ⟨a1, i1, ai1, g1⟩ := A
  simp only [] at h h1
  have h2 := fmt.doWidth_index format i1 ai1 g1
  generalize fmt.doWidth format i1 ai1 g1 = B at h h2
  obtain ⟨o1, i2, ai2, g2⟩ := B
  simp only [] at h h2
  have h3 := fmt.doPrecision_index format a1 i2 ai2 g2
  generalize fmt.doPrecision format a1 i2 ai2 g2 = C at h h3
  obtain ⟨o2, a3, i3, ai3, g3⟩ := C
  simp only [] at h h3
  split at h
  · have h4 := fmt.argNumber_index a3 format i3 0 g3
    generalize fmt.argNumber a3 format i3 0 g3 = D at h h4
    obtain ⟨x, i4, y, g4⟩ := D
    simp only [] at h h4
    have h5 := fmt.doVerbRune_index format i4 g4 _ o j h
    omega
  · have h5 := fmt.doVerbRune_index format i3 g3 _ o j h
    omega

/-- The loop of `doPrintf` needs no more than `format.length - i + 1` passes: more
passes give the same buffer. -/
theorem fmt.formatLoop_fuel (format : GoString) (fuel i : Nat) (buf : GoString)
    (h : format.length ≤ i + fuel) :
    fmt.formatLoop format (fuel + 1) i buf = fmt.formatLoop format fuel i buf := by
  induction fuel generalizing i buf with
  | zero =>
    unfold fmt.formatLoop
    simp only [Nat.add_zero] at h
    simp [h]
  | succ fuel ih =>
    rw [fmt.formatLoop]
    conv => rhs; rw [fmt.formatLoop]
    split
    · rfl
    · simp only []
      split
      · rfl
      · split
        · rfl
        · next out j hv =>
          have := fmt.doVerb_index format _ out j hv
          exact ih _ _ (by omega)

/-- The result of `doPrintf` does not depend on the bound on the passes. -/
theorem fmt.doPrintf_fuel (format : GoString) (k : Nat) :
    fmt.formatLoop format (format.length + 1 + k) 0 [] = fmt.doPrintf format := by
  unfold fmt.doPrintf
  induction k with
  | zero => rfl
  | succ k ih =>
    rw [← ih]
    exact fmt.formatLoop_fuel format (format.length + 1 + k) 0 [] (by omega)

theorem path.element_length (p : GoString) (r : Nat) (hr : r < p.length)
    (hc : p.getD r 0 ≠ 47) :
    1 ≤ ((p.drop r).takeWhile (fun c => c != 47)).length := by
  rw [List.drop_eq_getElem_cons hr]
  rw [List.getD_eq_getElem p 0 hr] at hc
  have hb : (p[r] != 47) = true := by simpa using hc
  rw [List.takeWhile_cons, hb]
  simp

/-- The loop of `Clean` needs no more than `path.length - r + 1` passes: more
passes give the same buffer. -/
theorem path.cleanLoop_fuel (p : GoString) (rooted : Bool) (fuel r : Nat) (out : GoString)
    (dotdot : Nat) (h : p.length ≤ r + fuel) :
    path.cleanLoop p rooted (fuel + 1) r out dotdot = path.cleanLoop p rooted fuel r out dotdot := by
  induction fuel generalizing r out dotdot with
  | zero =>
    unfold path.cleanLoop
    simp only [Nat.add_zero] at h
    simp [h]
  | succ fuel ih =>
    rw [path.cleanLoop]
    conv => rhs; rw [path.cleanLoop]
    simp only []
    split
    · rfl
    · next hr =>
      split
      · exact ih _ _ _ (by omega)
      · next h47 =>
        split
        · exact ih _ _ _ (by omega)
        · split
          · split
            · exact ih _ _ _ (by omega)
            · split
              · exact ih _ _ _ (by omega)
              · exact ih _ _ _ (by omega)
          · have := path.element_length p r (by omega) h47
            exact ih _ _ _ (by omega)

/-- The result of `Clean` does not depend on the bound on the passes. -/
theorem path.cleanLoop_fuel_add (p : GoString) (rooted : Bool) (k r : Nat) (out : GoString)
    (dotdot : Nat) :
    path.cleanLoop p rooted (p.length + 1 + k) r out dotdot
      = path.cleanLoop p rooted (p.length + 1) r out dotdot := by
  induction k with
  | zero => rfl
  | succ k ih =>
    rw [← ih]
    exact path.cleanLoop_fuel p rooted (p.length + 1 + k) r out dotdot (by omega)


theorem takeWhile_ne_of_not_mem (c : Byte) (g : GoString) (h : c ∉ g) :
    g.takeWhile (fun x => x != c) = g := by
  induction g with
  | nil => rfl
  | cons a t ih =>
    have ha : a ≠ c := fun e => h (by simp [e])
    have ht : c ∉ t := fun m => h (List.mem_cons_of_mem _ m)
    have hb : (a != c) = true := by simpa using ha
    rw [List.takeWhile_cons, hb]
    simp [ih ht]

/-- A format without a percent sign is copied to the buffer as it is. -/
theorem fmt.doPrintf_of_no_percent (g : GoString) (h : 37 ∉ g) : fmt.doPrintf g = g := by
  unfold fmt.doPrintf fmt.formatLoop
  by_cases hg : g.length = 0
  · have : g = [] := List.length_eq_zero.mp hg
    subst this; rfl
  · simp only [List.drop_zero, Nat.zero_add, List.nil_append, takeWhile_ne_of_not_mem 37 g h]
    simp [hg]

theorem path.backtrack_ge (out : GoString) (dotdot w : Nat) (h : dotdot ≤ w) :
    dotdot ≤ path.backtrack out dotdot w := by
  induction w with
  | zero => simpa [path.backtrack] using h
  | succ w ih =>
    unfold path.backtrack
    split
    · next hc => exact ih (by omega)
    · exact h

/-- The loop of `Clean` on a rooted path keeps the leading slash of the buffer. -/
theorem path.cleanLoop_rooted (p : GoString) (fuel r : Nat) (out : GoString)
    (h : out.head? = some 47) :
    (path.cleanLoop p true fuel r out 1).head? = some 47 := by
  induction fuel generalizing r out with
  | zero => simpa [path.cleanLoop] using h
  | succ fuel ih =>
    have hlen : 1 ≤ out.length := by
      cases out with
      | nil => simp at h
      | cons a t => simp
    unfold path.cleanLoop
    simp only []
    split
    · exact h
    · split
      · exact ih _ _ h
      · split
        · exact ih _ _ h
        · split
          · split
            · apply ih
              have hb := path.backtrack_ge out 1 (out.length - 1) (by omega)
              cases out with
              | nil => simp at h
              | cons a t =>
                obtain ⟨k, hk⟩ : ∃ k, path.backtrack (a :: t) 1 ((a :: t).length - 1) = k + 1 :=
                  ⟨_, (Nat.succ_pred_eq_of_pos (by omega)).symm⟩
                rw [hk]
                simpa using h
            · simp
              exact ih _ _ h
          · apply ih
            cases out with
            | nil => simp at h
            | cons a t => 
              simp at h
              subst h
              split <;> simp

/-- The cleaned path always starts with a slash. -/
theorem http.cleanPath_head (p : GoString) : (http.cleanPath p).head? = some 47 := by
  unfold http.cleanPath
  split
  · rfl
  · next hp =>
    have key : ∀ q : GoString, q.head? = some 47 → (path.Clean q).head? = some 47 := by
      intro q hq
      cases q with
      | nil => simp at hq
      | cons a t =>
        simp at hq
        subst hq
        have h1 := path.cleanLoop_rooted (47 :: t) ((47 :: t).length + 1) 1 [47] rfl
        unfold path.Clean
        simp only [List.getD_cons_zero, decide_True, if_true, reduceCtorEq, if_false]
        split
        · next h0 =>
          rw [List.length_eq_zero.mp h0] at h1
          simp at h1
        · exact h1
    have hq : (if p.getD 0 0 ≠ 47 then 47 :: p else p).head? = some 47 := by
      cases p with
      | nil => exact absurd rfl hp
      | cons a t =>
        by_cases ha : a = 47
        · simp [ha]
        · simp [ha]
    have aux : ∀ q : GoString, q.head? = some 47 →
        (if q.getD (q.length - 1) 0 = 47 ∧ path.Clean q ≠ lit "/" then
          if q.length = (path.Clean q).length + 1 ∧ (path.Clean q).isPrefixOf q then q
          else path.Clean q ++ [47]
        else path.Clean q).head? = some 47 := by
      intro q hq1
      have hnp := key q hq1
      split
      · split
        · exact hq1
        · cases hc : path.Clean q with
          | nil => rw [hc] at hnp; simp at hnp
          | cons a t => rw [hc] at hnp; simpa using hnp
      · exact hnp
    exact aux _ hq

theorem pattern_eq : pattern = [47] := rfl

/-- On the mux that holds one entry, on the pattern `/`, every rooted path gets
that entry and needs no redirect to a path with a trailing slash. -/
theorem http.ServeMux.single_rooted (e : http.muxEntry) (he : e.pattern = [47])
    (t : GoString) :
    http.ServeMux.shouldRedirectRLocked { m := [e], es := [e] } (47 :: t) = false
      ∧ http.ServeMux.handler { m := [e], es := [e] } (47 :: t) = http.Route.registered e := by
  refine ⟨?_, ?_⟩
  · simp [http.ServeMux.shouldRedirectRLocked, he]
  · simp only [http.ServeMux.handler, http.ServeMux.matchPath]
    by_cases h1 : t = []
    · simp [List.find?, he, h1]
    · simp [List.find?, he, h1, List.isPrefixOf]

/-- On the mux that holds one entry, on the pattern `/`, the server hands every
request with a target other than `*` and a path in canonical form to that entry. -/
theorem http.serverHandler_single (e : http.muxEntry) (he : e.pattern = [47])
    (r : http.Request) (huri : r.RequestURI ≠ lit "*")
    (hclean : http.cleanPath r.Path = r.Path) :
    (http.serverHandler { m := [e], es := [e] } r).1
      = http.Reply.handled (e.h (http.response.new r) r).finishRequest := by
  have hhead := http.cleanPath_head r.Path
  rw [hclean] at hhead
  obtain ⟨t, ht⟩ : ∃ t, r.Path = 47 :: t := by
    cases hp : r.Path with
    | nil => rw [hp] at hhead; simp at hhead
    | cons a t => rw [hp] at hhead; simp at hhead; exact ⟨t, by rw [hhead]⟩
  obtain ⟨hred, hh⟩ := http.ServeMux.single_rooted e he t
  rw [← ht] at hred hh
  have hH : http.ServeMux.Handler { m := [e], es := [e] } r = http.Route.registered e := by
    unfold http.ServeMux.Handler
    simp only [hclean, hred, hh]
    simp
  unfold http.serverHandler http.ServeMux.ServeHTTP
  simp [huri, hH]

/-- On the mux that holds one entry, on the pattern `/`, the server hands every
`CONNECT` request with a target other than `*` and a rooted path to that entry:
the path of a `CONNECT` request is not cleaned. -/
theorem http.serverHandler_connect (e : http.muxEntry) (he : e.pattern = [47])
    (r : http.Request) (huri : r.RequestURI ≠ lit "*")
    (hm : r.Method = lit "CONNECT") (hroot : r.Path.head? = some 47) :
    (http.serverHandler { m := [e], es := [e] } r).1
      = http.Reply.handled (e.h (http.response.new r) r).finishRequest := by
  obtain ⟨t, ht⟩ : ∃ t, r.Path = 47 :: t := by
    cases hp : r.Path with
    | nil => rw [hp] at hroot; simp at hroot
    | cons a t => rw [hp] at hroot; simp at hroot; exact ⟨t, by rw [hroot]⟩
  obtain ⟨hred, hh⟩ := http.ServeMux.single_rooted e he t
  rw [← ht] at hred hh
  have hH : http.ServeMux.Handler { m := [e], es := [e] } r = http.Route.registered e := by
    unfold http.ServeMux.Handler
    simp only [hm, hred, hh]
    simp
  unfold http.serverHandler http.ServeMux.ServeHTTP
  simp [huri, hH]

/-- The default mux after `main` has registered its handler: one entry, on `/`. -/
theorem main_mux (hello : GoString) (env : Env) :
    (main hello env).mux
      = { m := [{ h := handler hello http.response.writer, pattern := pattern }],
          es := [{ h := handler hello http.response.writer, pattern := pattern }] } := by
  have hreg : http.ServeMux.Default.Handle pattern (handler hello http.response.writer)
      = some { m := [{ h := handler hello http.response.writer, pattern := pattern }],
               es := [{ h := handler hello http.response.writer, pattern := pattern }] } := rfl
  unfold main
  rw [hreg]
  simp only []
  split <;> rfl

/-- The writer after the handler is the writer after the one `Write` call with the
formatted greeting, whether that call returns or panics. -/
theorem handler_eq_write (g : GoString) (W : Type) (rw : http.ResponseWriter W) (w : W)
    (r : http.Request) : handler g rw w r = (rw.Write w (fmt.doPrintf g)).1 := by
  unfold handler handlerCall fmt.Fprintf
  cases hw : rw.Write w (fmt.doPrintf g) with
  | mk w1 o => cases o <;> rfl

/-- The method `Write` of the server's writer for a new request: it returns the
length of the data and no error, and the body is the data, or nothing for a `HEAD`
request. -/
theorem http.response.Write_new (r : http.Request) (data : GoString) :
    (http.response.new r).Write data
      = ({ reqMethod := r.Method, wroteHeader := true, status := 200, header := [],
           body := if r.Method = lit "HEAD" then [] else data },
         http.Outcome.returned (data.length, none)) := by
  simp only [http.response.Write, http.response.new, http.response.WriteHeader, http.StatusOK]
  by_cases h0 : data.length = 0
  · have : data = [] := List.length_eq_zero.mp h0
    simp [this]
  · by_cases hm : r.Method = lit "HEAD"
    · simp [h0, hm, http.bodyAllowedForStatus]
    · simp [h0, hm, http.bodyAllowedForStatus]

/-- The handler on the server's own writer for a new request: after
`finishRequest` the status is 200, no header is set, and the body is the formatted
greeting, or nothing for a `HEAD` request. -/
theorem handler_on_new (g : GoString) (r : http.Request) :
    (handler g http.response.writer (http.response.new r) r).finishRequest
      = { reqMethod := r.Method, wroteHeader := true, status := 200, header := [],
          body := if r.Method = lit "HEAD" then [] else fmt.doPrintf g } := by
  rw [handler_eq_write]
  show ((http.response.new r).Write (fmt.doPrintf g)).1.finishRequest = _
  rw [http.response.Write_new]
  rfl

theorem hello_no_percent : 37 ∉ quote.Hello := by decide

/-- Steps never change the default mux. -/
theorem run_mux (p : Process) (inputs : List Input) : (run p inputs).mux = p.mux := by
  induction inputs generalizing p with
  | nil => rfl
  | cons i t ih =>
    have hs : (step p i).mux = p.mux := by
      unfold step
      split <;> rfl
    show (run (step p i) t).mux = p.mux
    rw [ih, hs]

/-- A terminated process stays as it is. -/
theorem run_terminated (p : Process) (inputs : List Input) (h : p.state = State.Terminated) :
    run p inputs = p := by
  induction inputs with
  | nil => rfl
  | cons i t ih =>
    have hs : step p i = p := by
      unfold step
      split
      · rfl
      · next _ h1 => rw [h] at h1; cases h1
      · next _ h1 => rw [h] at h1; cases h1
    show run (step p i) t = p
    rw [hs, ih]

/-! ## The claims -/

/-- C1, as stated, fails: `GET //x` on the listening server is not answered with
status 200 and the greeting; the mux answers with a redirect to `/x`. -/
theorem C1_redirect_counterexample :
    reply (main quote.Hello freeEnv) (mkRequest (lit "GET") (lit "//x") [])
        = some (http.Reply.redirect 301 (lit "/x") [])
      ∧ (http.Reply.redirect 301 (lit "/x") []).status ≠ 200 := by
  decide

/-- C1, amended: the listening server answers every request, whatever its method,
whose target is not `*` and whose path is in canonical form (`cleanPath` leaves it
unchanged) or is rooted and comes with the method `CONNECT` (for which the mux
does not clean the path) through the registered handler, with status 200, no
header set and the greeting `Hello, world.` as body; for a `HEAD` request no body
is sent. -/
theorem C1_status_ok_greeting (env : Env) (r : http.Request)
    (hlisten : (main quote.Hello env).state = State.Listening)
    (huri : r.RequestURI ≠ lit "*")
    (hpath : http.cleanPath r.Path = r.Path
      ∨ (r.Method = lit "CONNECT" ∧ r.Path.head? = some 47)) :
    reply (main quote.Hello env) r
      = some (http.Reply.handled
          { reqMethod := r.Method, wroteHeader := true, status := 200, header := [],
            body := if r.Method = lit "HEAD" then [] else lit "Hello, world." }) := by
  have hserve : (http.serverHandler (main quote.Hello env).mux r).1
      = http.Reply.handled
          (handler quote.Hello http.response.writer (http.response.new r) r).finishRequest := by
    rw [main_mux]
    rcases hpath with hclean | ⟨hm, hroot⟩
    · exact http.serverHandler_single _ pattern_eq r huri hclean
    · exact http.serverHandler_connect _ pattern_eq r huri hm hroot
  unfold reply
  rw [hlisten]
  simp only []
  rw [hserve, handler_on_new, fmt.doPrintf_of_no_percent _ hello_no_percent]
  rfl

/-- C1 at `GET /`, status 200 and body `Hello, world.`, and at `CONNECT //x`. -/
theorem C1_status_ok_greeting_witness :
    (main quote.Hello freeEnv).state = State.Listening
      ∧ reply (main quote.Hello freeEnv) (mkRequest (lit "GET") (lit "/") [])
          = some (http.Reply.handled
              { reqMethod := lit "GET", wroteHeader := true, status := 200, header := [],
                body := lit "Hello, world." })
      ∧ reply (main quote.Hello freeEnv) (mkRequest (lit "CONNECT") (lit "//x") [])
          = some (http.Reply.handled
              { reqMethod := lit "CONNECT", wroteHeader := true, status := 200, header := [],
                body := lit "Hello, world." }) :=
  ⟨by decide,
   C1_status_ok_greeting freeEnv (mkRequest (lit "GET") (lit "/") [])
     (by decide) (by decide) (Or.inl (by decide)),
   C1_status_ok_greeting freeEnv (mkRequest (lit "CONNECT") (lit "//x") [])
     (by decide) (by decide) (Or.inr ⟨by decide, by decide⟩)⟩

theorem handle_pattern (h : http.HandlerFunc) :
    http.ServeMux.Default.Handle pattern h
      = some { m := [{ h := h, pattern := pattern }], es := [{ h := h, pattern := pattern }] } :=
  rfl

/-- The run of `main` when `ListenAndServe` returns an error. -/
theorem main_of_error (hello : GoString) (env : Env) (err : http.GoError)
    (h : ListenAndServe env addr = Except.error err) :
    (main hello env).trace
        = [Event.HandleFunc pattern, Event.Stdout (fmt.Println banner),
           Event.Listen addr (some err), Event.Exit 0]
      ∧ (main hello env).state = State.Terminated
      ∧ (main hello env).exitCode = some 0
      ∧ (main hello env).env = env := by
  unfold main
  rw [handle_pattern, h]
  exact ⟨rfl, rfl, rfl, rfl⟩

/-- The run of `main` when the bind succeeds. -/
theorem main_of_ok (hello : GoString) (env env1 : Env)
    (h : ListenAndServe env addr = Except.ok env1) :
    (main hello env).trace
        = [Event.HandleFunc pattern, Event.Stdout (fmt.Println banner), Event.Listen addr none]
      ∧ (main hello env).state = State.Listening
      ∧ (main hello env).exitCode = none
      ∧ (main hello env).env = env1 := by
  unfold main
  rw [handle_pattern, h]
  exact ⟨rfl, rfl, rfl, rfl⟩

/-- The bind fails exactly on an address that is denied or in use. -/
theorem listen_error_of_unavailable (env : Env) (a : GoString)
    (h : a ∈ env.inUse ∨ a ∈ env.denied) :
    ∃ err, ListenAndServe env a = Except.error err := by
  unfold ListenAndServe net.Listen
  by_cases hd : a ∈ env.denied
  · exact ⟨net.permissionDenied a, by simp [hd]⟩
  · have hu : a ∈ env.inUse := h.resolve_right hd
    exact ⟨net.addrInUse a, by simp [hd, hu]⟩

theorem listen_ok_of_available (env : Env) (a : GoString)
    (hu : a ∉ env.inUse) (hd : a ∉ env.denied) :
    ListenAndServe env a = Except.ok { env with inUse := a :: env.inUse } := by
  unfold ListenAndServe net.Listen
  simp [hd, hu]

/-- C2, as stated, fails: with port 8080 in use, `ListenAndServe` returns the
bind error and the process ends with exit code 0, not a non-zero one. -/
theorem C2_exit_zero_counterexample :
    ListenAndServe busyEnv addr = Except.error (net.addrInUse addr)
      ∧ (main quote.Hello busyEnv).state = State.Terminated
      ∧ (main quote.Hello busyEnv).exitCode = some 0 := by
  refine ⟨rfl, ?_, ?_⟩ <;> decide

/-- C2, amended: when binding the listening address fails (in use, or no
permission), `ListenAndServe` returns the error, `main` discards it and returns,
and the process terminates with exit code 0; no run of `main` ends by itself with
another exit code. -/
theorem C2_bind_failure_exit_zero (hello : GoString) (env : Env)
    (h : addr ∈ env.inUse ∨ addr ∈ env.denied) :
    (main hello env).state = State.Terminated
      ∧ (main hello env).exitCode = some 0
      ∧ (main hello env).trace.getLast? = some (Event.Exit 0)
      ∧ ∀ (env2 : Env) (c : Nat), (main hello env2).exitCode = some c → c = 0 := by
  obtain ⟨err, herr⟩ := listen_error_of_unavailable env addr h
  obtain ⟨ht, hs, hx, _⟩ := main_of_error hello env err herr
  refine ⟨hs, hx, by rw [ht]; rfl, ?_⟩
  intro env2 c hc
  cases hl : ListenAndServe env2 addr with
  | error e =>
    have := (main_of_error hello env2 e hl).2.2.1
    rw [this] at hc
    exact (Option.some.inj hc).symm
  | ok e1 =>
    have := (main_of_ok hello env2 e1 hl).2.2.1
    rw [this] at hc
    cases hc

/-- C2 with port 8080 in use. -/
theorem C2_bind_failure_exit_zero_witness :
    (addr ∈ busyEnv.inUse ∨ addr ∈ busyEnv.denied)
      ∧ (main quote.Hello busyEnv).exitCode = some 0 :=
  ⟨by decide, (C2_bind_failure_exit_zero quote.Hello busyEnv (by decide)).2.1⟩

/-- After a successful bind the address has a listener. -/
theorem listen_ok_inUse (env env1 : Env) (a : GoString)
    (h : ListenAndServe env a = Except.ok env1) : a ∈ env1.inUse := by
  unfold ListenAndServe net.Listen at h
  split at h
  · cases h
  · split at h
    · cases h
    · cases h
      simp

/-- The run of `main` on an address that cannot be bound: one bind attempt, no
request served then or later, process terminated. -/
theorem main_of_unavailable (hello : GoString) (env : Env)
    (h : addr ∈ env.inUse ∨ addr ∈ env.denied) :
    (∃ err, ListenAndServe env addr = Except.error err
        ∧ (main hello env).trace
            = [Event.HandleFunc pattern, Event.Stdout (fmt.Println banner),
               Event.Listen addr (some err), Event.Exit 0])
      ∧ binds (main hello env).trace = [addr]
      ∧ (main hello env).state = State.Terminated
      ∧ (∀ inputs : List Input, run (main hello env) inputs = main hello env)
      ∧ (∀ inputs : List Input, served (run (main hello env) inputs).trace = [])
      ∧ (∀ r : http.Request, reply (main hello env) r = none) := by
  obtain ⟨err, herr⟩ := listen_error_of_unavailable env addr h
  obtain ⟨ht, hs, _, _⟩ := main_of_error hello env err herr
  have hrun : ∀ inputs : List Input, run (main hello env) inputs = main hello env :=
    fun inputs => run_terminated _ inputs hs
  refine ⟨⟨err, herr, ht⟩, by rw [ht]; rfl, hs, hrun, ?_, ?_⟩
  · intro inputs
    rw [hrun inputs, ht]
    rfl
  · intro r
    unfold reply
    rw [hs]

/-- C3: started on an address that is already in use, the server fails with the
bind error that `ListenAndServe` returns, and the failure is fatal: the trace of
the process is registration, banner, one bind attempt and the exit, so the bind
is attempted exactly once; the process is terminated; no input makes it serve a
request. In particular the second of two starts fails this way: the environment
that a successful start leaves has the address in use. -/
theorem C3_bind_error_fatal (hello : GoString) (env : Env) (h : addr ∈ env.inUse) :
    ((∃ err, ListenAndServe env addr = Except.error err
        ∧ (main hello env).trace
            = [Event.HandleFunc pattern, Event.Stdout (fmt.Println banner),
               Event.Listen addr (some err), Event.Exit 0])
      ∧ binds (main hello env).trace = [addr]
      ∧ (main hello env).state = State.Terminated
      ∧ (∀ inputs : List Input, run (main hello env) inputs = main hello env)
      ∧ (∀ inputs : List Input, served (run (main hello env) inputs).trace = [])
      ∧ (∀ r : http.Request, reply (main hello env) r = none))
    ∧ ∀ env0 : Env, (main hello env0).state = State.Listening →
        (∃ err, ListenAndServe (main hello env0).env addr = Except.error err)
          ∧ binds (main hello (main hello env0).env).trace = [addr]
          ∧ (main hello (main hello env0).env).state = State.Terminated
          ∧ ∀ inputs : List Input,
              served (run (main hello (main hello env0).env) inputs).trace = [] := by
  refine ⟨main_of_unavailable hello env (Or.inl h), ?_⟩
  intro env0 h0
  have hin : addr ∈ (main hello env0).env.inUse := by
    cases hl : ListenAndServe env0 addr with
    | error e =>
      have := (main_of_error hello env0 e hl).2.1
      rw [this] at h0
      cases h0
    | ok e1 =>
      rw [(main_of_ok hello env0 e1 hl).2.2.2]
      exact listen_ok_inUse env0 e1 addr hl
  obtain ⟨⟨err, herr, _⟩, hb, hs, _, hsv, _⟩ :=
    main_of_unavailable hello (main hello env0).env (Or.inl hin)
  exact ⟨⟨err, herr⟩, hb, hs, hsv⟩

/-- C3 with port 8080 in use, and for the second start after a start on a free
port. -/
theorem C3_bind_error_fatal_witness :
    addr ∈ busyEnv.inUse
      ∧ binds (main quote.Hello busyEnv).trace = [lit ":8080"]
      ∧ (main quote.Hello busyEnv).state = State.Terminated
      ∧ (main quote.Hello freeEnv).state = State.Listening
      ∧ (main quote.Hello (main quote.Hello freeEnv).env).state = State.Terminated :=
  ⟨by decide,
   (C3_bind_error_fatal quote.Hello busyEnv (by decide)).1.2.1,
   (C3_bind_error_fatal quote.Hello busyEnv (by decide)).1.2.2.1,
   by decide,
   ((C3_bind_error_fatal quote.Hello busyEnv (by decide)).2 freeEnv (by decide)).2.2.1⟩

theorem stdout_append (t u : List Event) : stdout (t ++ u) = stdout t ++ stdout u := by
  induction t with
  | nil => rfl
  | cons e t ih => cases e <;> simp [stdout, ih]

theorem stderr_append (t u : List Event) : stderr (t ++ u) = stderr t ++ stderr u := by
  induction t with
  | nil => rfl
  | cons e t ih => cases e <;> simp [stderr, ih]

theorem binds_append (t u : List Event) : binds (t ++ u) = binds t ++ binds u := by
  induction t with
  | nil => rfl
  | cons e t ih => cases e <;> simp [binds, ih]

theorem served_append (t u : List Event) : served (t ++ u) = served t ++ served u := by
  induction t with
  | nil => rfl
  | cons e t ih => cases e <;> simp [served, ih]

/-- Log lines are neither standard output nor bind attempts nor served requests. -/
theorem log_events (msgs : List GoString) :
    stdout (msgs.map Event.Log) = [] ∧ binds (msgs.map Event.Log) = []
      ∧ served (msgs.map Event.Log) = [] := by
  induction msgs with
  | nil => exact ⟨rfl, rfl, rfl⟩
  | cons m t ih => simpa [stdout, binds, served] using ih

/-- Steps write nothing to standard output and bind nothing. -/
theorem run_output (p : Process) (inputs : List Input) :
    stdout (run p inputs).trace = stdout p.trace
      ∧ binds (run p inputs).trace = binds p.trace := by
  induction inputs generalizing p with
  | nil => exact ⟨rfl, rfl⟩
  | cons i t ih =>
    have hs : stdout (step p i).trace = stdout p.trace
        ∧ binds (step p i).trace = binds p.trace := by
      unfold step
      split
      · exact ⟨rfl, rfl⟩
      · next r _ =>
        obtain ⟨h1, h2, _⟩ := log_events (http.serverHandler p.mux r).2
        simp [stdout_append, binds_append, stdout, binds, h1, h2]
      · simp [stdout_append, binds_append, stdout, binds]
    obtain ⟨h1, h3⟩ := ih (step p i)
    exact ⟨h1.trans hs.1, h3.trans hs.2⟩

/-- The start of every run of `main`: registration, banner, bind attempt. -/
theorem main_trace (hello : GoString) (env : Env) :
    ∃ err rest, (main hello env).trace
        = [Event.HandleFunc pattern, Event.Stdout (fmt.Println banner), Event.Listen addr err]
            ++ rest
      ∧ (rest = [] ∨ rest = [Event.Exit 0]) := by
  cases hl : ListenAndServe env addr with
  | error e => exact ⟨some e, [Event.Exit 0], (main_of_error hello env e hl).1, Or.inr rfl⟩
  | ok e1 => exact ⟨none, [], (main_of_ok hello env e1 hl).1, Or.inl rfl⟩

/-- C6: the listening address is fixed. Whatever the environment (command-line
arguments and environment variables included) and whatever happens later, the
process makes its bind attempt on `:8080` and on nothing else, and the banner
names the same port, 8080. -/
theorem C6_fixed_port (hello : GoString) (env : Env) (inputs : List Input) :
    binds (run (main hello env) inputs).trace = [lit ":" ++ lit "8080"]
      ∧ stdout (run (main hello env) inputs).trace
          = fmt.Println (lit "Server listening on port " ++ lit "8080")
      ∧ ∀ (args : List GoString) (environ : List (GoString × GoString)),
          binds (main hello { env with args := args, environ := environ }).trace
            = binds (main hello env).trace := by
  have hb : ∀ e : Env, binds (main hello e).trace = [addr] := by
    intro e
    obtain ⟨err, rest, ht, hr⟩ := main_trace hello e
    rw [ht]
    rcases hr with hr | hr <;> subst hr <;> rfl
  have hso : stdout (main hello env).trace = fmt.Println banner := by
    obtain ⟨err, rest, ht, hr⟩ := main_trace hello env
    rw [ht]
    rcases hr with hr | hr <;> subst hr <;> simp [stdout]
  obtain ⟨h1, h3⟩ := run_output (main hello env) inputs
  refine ⟨?_, ?_, ?_⟩
  · rw [h3, hb]; rfl
  · rw [h1, hso]; rfl
  · intro args environ
    rw [hb, hb]

/-- C10: `main` prints the line `Server listening on port 8080` exactly once,
after registering the handler and before the bind attempt, whether or not the
bind succeeds: every trace of `main` starts with registration, banner, bind
attempt and writes nothing to standard error; the whole standard output of the
process, whatever happens later, is that one line; on a run in which the bind
fails the trace is registration, banner, failed bind attempt, exit, and the
output is the banner line and no error message, then and ever after. -/
theorem C10_banner_once (hello : GoString) (env : Env) :
    (∃ err rest, (main hello env).trace
        = [Event.HandleFunc pattern, Event.Stdout (banner ++ [10]), Event.Listen addr err]
            ++ rest
        ∧ (rest = [] ∨ rest = [Event.Exit 0]))
      ∧ stderr (main hello env).trace = []
      ∧ (∀ inputs : List Input, stdout (run (main hello env) inputs).trace = banner ++ [10])
      ∧ (∀ err, ListenAndServe env addr = Except.error err →
          (main hello env).trace
              = [Event.HandleFunc pattern, Event.Stdout (banner ++ [10]),
                 Event.Listen addr (some err), Event.Exit 0]
            ∧ ∀ inputs : List Input,
                stdout (run (main hello env) inputs).trace = banner ++ [10]
                  ∧ stderr (run (main hello env) inputs).trace = []) := by
  have hout : stdout (main hello env).trace = banner ++ [10]
      ∧ stderr (main hello env).trace = [] := by
    obtain ⟨err, rest, ht, hr⟩ := main_trace hello env
    rw [ht]
    rcases hr with hr | hr <;> subst hr <;> simp [stdout, stderr, fmt.Println]
  have hso : ∀ inputs : List Input, stdout (run (main hello env) inputs).trace = banner ++ [10] :=
    fun inputs => (run_output (main hello env) inputs).1.trans hout.1
  refine ⟨main_trace hello env, hout.2, hso, ?_⟩
  intro err herr
  obtain ⟨ht, hs, _, _⟩ := main_of_error hello env err herr
  refine ⟨ht, fun inputs => ⟨hso inputs, ?_⟩⟩
  rw [run_terminated _ inputs hs]
  exact hout.2

/-- C10 with port 8080 in use: the output is the banner line, the error is not
printed. -/
theorem C10_banner_once_witness :
    ListenAndServe busyEnv addr = Except.error (net.addrInUse addr)
      ∧ stdout (main quote.Hello busyEnv).trace = lit "Server listening on port 8080" ++ [10]
      ∧ stderr (main quote.Hello busyEnv).trace = [] :=
  ⟨rfl,
   (((C10_banner_once quote.Hello busyEnv).2.2.2 (net.addrInUse addr) rfl).2 []).1,
   (((C10_banner_once quote.Hello busyEnv).2.2.2 (net.addrInUse addr) rfl).2 []).2⟩

/-- A request to a listening process: the process keeps its state, exit code, mux
and environment; the trace gets the lines logged and the reply. -/
theorem step_request (p : Process) (r : http.Request) (hs : p.state = State.Listening) :
    step p (Input.request r)
      = { p with trace := p.trace ++ (http.serverHandler p.mux r).2.map Event.Log
                            ++ [Event.Served r (http.serverHandler p.mux r).1] } := by
  unfold step
  rw [hs]

/-- The termination of a listening process. -/
theorem step_terminate (p : Process) (code : Nat) (dump : GoString)
    (hs : p.state = State.Listening) :
    step p (Input.terminate code dump)
      = { p with trace := p.trace ++ [Event.Stderr dump, Event.Exit code],
                 state := State.Terminated, exitCode := some code } := by
  unfold step
  rw [hs]

/-- The runs of a listening process: it listens as long as no termination has
come, it is terminated exactly when it has an exit code, and the requests it has
served are those that arrived before the first termination. -/
theorem run_listening (inputs : List Input) (p : Process)
    (hs : p.state = State.Listening) (hx : p.exitCode = none) :
    ((run p inputs).state = State.Listening ↔ terminates inputs = false)
      ∧ ((run p inputs).state = State.Terminated ↔ (run p inputs).exitCode ≠ none)
      ∧ served (run p inputs).trace = served p.trace ++ arrivals inputs := by
  induction inputs generalizing p with
  | nil =>
    refine ⟨by simp [run, hs, terminates], ?_, by simp [run, arrivals]⟩
    show p.state = State.Terminated ↔ p.exitCode ≠ none
    rw [hs, hx]
    simp
  | cons i t ih =>
    cases i with
    | request r =>
      have hq := step_request p r hs
      have h1 : (step p (Input.request r)).state = State.Listening := by rw [hq]; exact hs
      have h2 : (step p (Input.request r)).exitCode = none := by rw [hq]; exact hx
      have h3 : served (step p (Input.request r)).trace = served p.trace ++ [r] := by
        rw [hq]
        simp [served_append, (log_events _).2.2, served]
      obtain ⟨a, b, c⟩ := ih (step p (Input.request r)) h1 h2
      refine ⟨a, b, ?_⟩
      show served (run (step p (Input.request r)) t).trace = _
      rw [c, h3]
      simp [arrivals]
    | terminate code dump =>
      have hq := step_terminate p code dump hs
      have h1 : (step p (Input.terminate code dump)).state = State.Terminated := by rw [hq]
      have hr : run p (Input.terminate code dump :: t) = step p (Input.terminate code dump) :=
        run_terminated _ t h1
      rw [hr]
      refine ⟨?_, ?_, ?_⟩
      · rw [h1]; simp [terminates]
      · rw [hq]; simp
      · rw [hq]; simp [served_append, served, arrivals]

/-- C9: the server is a machine with the two states `Listening` and `Terminated`.
After a successful bind `main` has registered, printed and bound, has no exit code
and is in `Listening`. From there, after any inputs: the process is in `Listening`
exactly when no termination was among them, so handling requests leaves the state
`Listening` and only the termination of the process leads to `Terminated`; it is
in `Terminated` exactly when it has an exit code; the requests it has handled are
those that arrived before the first termination, so none is handled in
`Terminated`; and once in `Terminated` no further input changes it, so it never
goes back to `Listening`. -/
theorem C9_two_state_machine (hello : GoString) (env : Env) (inputs more : List Input)
    (hu : addr ∉ env.inUse) (hd : addr ∉ env.denied) :
    ((main hello env).state = State.Listening
        ∧ (main hello env).exitCode = none
        ∧ (main hello env).trace
            = [Event.HandleFunc pattern, Event.Stdout (fmt.Println banner),
               Event.Listen addr none])
      ∧ ((run (main hello env) inputs).state = State.Listening ↔ terminates inputs = false)
      ∧ ((run (main hello env) inputs).state = State.Terminated
          ↔ (run (main hello env) inputs).exitCode ≠ none)
      ∧ served (run (main hello env) inputs).trace = arrivals inputs
      ∧ ((run (main hello env) inputs).state = State.Terminated →
          run (run (main hello env) inputs) more = run (main hello env) inputs)
      ∧ (∀ s : State, s = State.Listening ∨ s = State.Terminated) := by
  obtain ⟨ht, hl, hx, _⟩ := main_of_ok hello env _ (listen_ok_of_available env addr hu hd)
  obtain ⟨a, b, c⟩ := run_listening inputs (main hello env) hl hx
  refine ⟨⟨hl, hx, ht⟩, a, b, ?_, fun h => run_terminated _ more h, ?_⟩
  · rw [c, ht]
    rfl
  · intro s
    cases s
    · exact Or.inl rfl
    · exact Or.inr rfl

/-- C9 on a free port: listening after the start; after a request, a termination
and another request the process is terminated and has handled the first request
only. -/
theorem C9_two_state_machine_witness :
    (addr ∉ freeEnv.inUse ∧ addr ∉ freeEnv.denied)
      ∧ (main quote.Hello freeEnv).state = State.Listening
      ∧ (run (main quote.Hello freeEnv)
          [Input.request (mkRequest (lit "GET") (lit "/") []), Input.terminate 2 [],
           Input.request (mkRequest (lit "POST") (lit "/") [])]).state = State.Terminated
      ∧ served (run (main quote.Hello freeEnv)
          [Input.request (mkRequest (lit "GET") (lit "/") []), Input.terminate 2 [],
           Input.request (mkRequest (lit "POST") (lit "/") [])]).trace
          = [mkRequest (lit "GET") (lit "/") []] :=
  ⟨⟨by decide, by decide⟩,
   (C9_two_state_machine quote.Hello freeEnv [] [] (by decide) (by decide)).1.1,
   by decide,
   (C9_two_state_machine quote.Hello freeEnv
      [Input.request (mkRequest (lit "GET") (lit "/") []), Input.terminate 2 [],
       Input.request (mkRequest (lit "POST") (lit "/") [])] []
      (by decide) (by decide)).2.2.2.1⟩

/-- C5: the greeting string is returned verbatim. For the string that
`quote.Hello()` returns, `Fprintf` formats it to itself, as it has no percent
sign; so, whatever the response writer, `Fprintf` ends as the call of `Write` with
exactly the bytes of the greeting ends, and the handler leaves the writer as that
call leaves it; on the server's own writer the body of the response to a request
other than `HEAD` is exactly the greeting. -/
theorem C5_greeting_verbatim :
    fmt.doPrintf quote.Hello = quote.Hello
      ∧ (∀ (W : Type) (rw : http.ResponseWriter W) (w : W) (r : http.Request),
          fmt.Fprintf rw.Write w quote.Hello = rw.Write w quote.Hello
            ∧ handler quote.Hello rw w r = (rw.Write w quote.Hello).1)
      ∧ (∀ r : http.Request, r.Method ≠ lit "HEAD" →
          (handler quote.Hello http.response.writer (http.response.new r) r).body
            = quote.Hello) := by
  have hf := fmt.doPrintf_of_no_percent quote.Hello hello_no_percent
  refine ⟨hf, ?_, ?_⟩
  · intro W rw w r
    refine ⟨?_, ?_⟩
    · unfold fmt.Fprintf
      rw [hf]
    · rw [handler_eq_write, hf]
  · intro r hr
    rw [handler_eq_write, hf]
    show ((http.response.new r).Write quote.Hello).1.body = quote.Hello
    rw [http.response.Write_new]
    simp [hr]

/-- C5 at `GET /`: the body is `Hello, world.`. -/
theorem C5_greeting_verbatim_witness :
    (handler quote.Hello http.response.writer
        (http.response.new (mkRequest (lit "GET") (lit "/") []))
        (mkRequest (lit "GET") (lit "/") [])).body = lit "Hello, world." :=
  C5_greeting_verbatim.2.2 (mkRequest (lit "GET") (lit "/") []) (by decide)

/-- C8, as stated, fails: on a writer whose `Write` fails, `fmt.Fprintf`, which the
handler executes, returns an error. -/
theorem C8_write_error_counterexample :
    (fmt.Fprintf brokenWriter.Write () quote.Hello).2
      = http.Outcome.returned (0, some (lit "write tcp: broken pipe")) := by
  decide

/-- The method `Write` of the server's writer always returns. -/
theorem http.response.Write_returns (w : http.response) (data : GoString) :
    ∃ n err, (w.Write data).2 = http.Outcome.returned (n, err) := by
  have h200 : http.bodyAllowedForStatus 200 = true := rfl
  unfold http.response.Write http.response.WriteHeader
  cases hw : w.wroteHeader <;> by_cases h0 : data.length = 0 <;>
    by_cases hm : w.reqMethod = lit "HEAD" <;>
    cases hb : http.bodyAllowedForStatus w.status <;>
    simp [hw, h0, hm, hb, h200, http.StatusOK]

/-- How the handler ends: it returns when `Write` returns, and panics with the
value that `Write` panics with. -/
theorem handlerCall_outcome (g : GoString) (W : Type) (rw : http.ResponseWriter W) (w : W)
    (r : http.Request) :
    (∀ n err, (rw.Write w (fmt.doPrintf g)).2 = http.Outcome.returned (n, err) →
        (handlerCall g rw w r).2 = http.Outcome.returned ())
      ∧ (∀ v, (handlerCall g rw w r).2 = http.Outcome.panicked v
          ↔ (rw.Write w (fmt.doPrintf g)).2 = http.Outcome.panicked v) := by
  unfold handlerCall fmt.Fprintf
  cases hw : rw.Write w (fmt.doPrintf g) with
  | mk w1 o =>
    cases o with
    | returned a =>
      refine ⟨fun _ _ _ => rfl, fun v => ⟨fun h => ?_, fun h => ?_⟩⟩
      · cases h
      · cases h
    | panicked v0 =>
      refine ⟨fun n err h => ?_, fun v => ⟨fun h => ?_, fun h => ?_⟩⟩
      · cases h
      · cases h; rfl
      · cases h; rfl

/-- C8, amended: the handler has no failure path of its own. For every greeting,
request and response writer, the one operation it executes, `fmt.Fprintf`, ends
as the single `Write` call on the writer ends; when `Write` returns, with or
without an error, the handler discards the result and returns; the handler panics
only when `Write` panics, with the same value. The server's own writer always
returns from `Write`, in any state, so there the handler always returns; for a
new request `Fprintf` returns the length of the formatted greeting and no error. -/
theorem C8_handler_no_failure (g : GoString) (r : http.Request) :
    (∀ (W : Type) (rw : http.ResponseWriter W) (w : W),
        (fmt.Fprintf rw.Write w g).2 = (rw.Write w (fmt.doPrintf g)).2
          ∧ (∀ n err, (rw.Write w (fmt.doPrintf g)).2 = http.Outcome.returned (n, err) →
              (handlerCall g rw w r).2 = http.Outcome.returned ())
          ∧ (∀ v, (handlerCall g rw w r).2 = http.Outcome.panicked v
              ↔ (rw.Write w (fmt.doPrintf g)).2 = http.Outcome.panicked v))
      ∧ (∀ (w : http.response) (data : GoString),
          ∃ n err, (w.Write data).2 = http.Outcome.returned (n, err))
      ∧ (∀ w : http.response,
          (handlerCall g http.response.writer w r).2 = http.Outcome.returned ())
      ∧ (fmt.Fprintf http.response.writer.Write (http.response.new r) g).2
          = http.Outcome.returned ((fmt.doPrintf g).length, none) := by
  refine ⟨fun W rw w => ⟨rfl, handlerCall_outcome g W rw w r⟩,
    http.response.Write_returns, ?_, ?_⟩
  · intro w
    obtain ⟨n, err, h⟩ := http.response.Write_returns w (fmt.doPrintf g)
    exact (handlerCall_outcome g _ http.response.writer w r).1 n err h
  · show ((http.response.new r).Write (fmt.doPrintf g)).2 = _
    rw [http.response.Write_new]

/-- C8 on a broken connection, where `Write` returns an error and the handler
returns all the same, and on a writer that panics, where the handler panics. -/
theorem C8_handler_no_failure_witness :
    (brokenWriter.Write () (fmt.doPrintf quote.Hello)).2
        = http.Outcome.returned (0, some (lit "write tcp: broken pipe"))
      ∧ (handlerCall quote.Hello brokenWriter () (mkRequest (lit "GET") (lit "/") [])).2
        = http.Outcome.returned ()
      ∧ (handlerCall quote.Hello panickingWriter () (mkRequest (lit "GET") (lit "/") [])).2
        = http.Outcome.panicked (lit "write on a closed writer") :=
  ⟨rfl,
   ((C8_handler_no_failure quote.Hello (mkRequest (lit "GET") (lit "/") [])).1
      Unit brokenWriter ()).2.1 0 (some (lit "write tcp: broken pipe")) rfl,
   (((C8_handler_no_failure quote.Hello (mkRequest (lit "GET") (lit "/") [])).1
      Unit panickingWriter ()).2.2 (lit "write on a closed writer")).mpr rfl⟩

/-- What `Write` on the server's writer leaves alone: the header map and the
request method; the body only grows by the data, or stays; a status already
written stays. -/
theorem http.response.Write_frame (w : http.response) (data : GoString) :
    (w.Write data).1.header = w.header
      ∧ (w.Write data).1.reqMethod = w.reqMethod
      ∧ ((w.Write data).1.body = w.body ++ data ∨ (w.Write data).1.body = w.body)
      ∧ (w.wroteHeader = true → (w.Write data).1.status = w.status)
      ∧ (w.wroteHeader = false → (w.Write data).1.status = 200) := by
  have h200 : http.bodyAllowedForStatus 200 = true := rfl
  unfold http.response.Write http.response.WriteHeader
  cases hw : w.wroteHeader <;> by_cases h0 : data.length = 0 <;>
    by_cases hm : w.reqMethod = lit "HEAD" <;>
    cases hb : http.bodyAllowedForStatus w.status <;>
    simp [hw, h0, hm, hb, h200, http.StatusOK]

/-- C7: the handler has no effect beyond one write to the response writer. For
every greeting, request and writer it makes exactly the call `Write` with the
formatted greeting, so it calls neither `Header` nor `WriteHeader`, and the result
does not depend on the request. On the server's own writer this leaves the header
map as it was, sets no status other than the implicit 200 of the first write, and
changes the body only by appending the data. Serving a request leaves the mux,
the state, the exit code and the environment of the process unchanged and adds
to the trace what the server logs for the request and the entry for the request
and its reply. -/
theorem C7_handler_frame (g : GoString) (r r2 : http.Request) :
    (∀ (W : Type) (rw : http.ResponseWriter W) (w : W),
        handler g rw w r = (rw.Write w (fmt.doPrintf g)).1
          ∧ handler g rw w r = handler g rw w r2)
      ∧ (∀ w : http.response,
          (handler g http.response.writer w r).header = w.header
            ∧ (handler g http.response.writer w r).reqMethod = w.reqMethod
            ∧ ((handler g http.response.writer w r).body = w.body ++ fmt.doPrintf g
                ∨ (handler g http.response.writer w r).body = w.body)
            ∧ (w.wroteHeader = true → (handler g http.response.writer w r).status = w.status)
            ∧ (w.wroteHeader = false → (handler g http.response.writer w r).status = 200))
      ∧ (∀ p : Process, p.state = State.Listening →
          (step p (Input.request r)).mux = p.mux
            ∧ (step p (Input.request r)).state = p.state
            ∧ (step p (Input.request r)).exitCode = p.exitCode
            ∧ (step p (Input.request r)).env = p.env
            ∧ (step p (Input.request r)).trace
                = p.trace ++ (http.serverHandler p.mux r).2.map Event.Log
                    ++ [Event.Served r (http.serverHandler p.mux r).1]) := by
  refine ⟨fun W rw w => ⟨handler_eq_write g W rw w r, ?_⟩, ?_, ?_⟩
  · rw [handler_eq_write, handler_eq_write]
  · intro w
    rw [handler_eq_write]
    exact http.response.Write_frame w (fmt.doPrintf g)
  · intro p hp
    rw [step_request p r hp]
    exact ⟨rfl, rfl, rfl, rfl, rfl⟩

/-- C7 on the listening server: `POST /` with a body leaves the process as it was
but for the trace, and the response carries no header. -/
theorem C7_handler_frame_witness :
    (main quote.Hello freeEnv).state = State.Listening
      ∧ (step (main quote.Hello freeEnv)
          (Input.request (mkRequest (lit "POST") (lit "/") (lit "x=1")))).state
          = (main quote.Hello freeEnv).state
      ∧ (handler quote.Hello http.response.writer
          (http.response.new (mkRequest (lit "POST") (lit "/") (lit "x=1")))
          (mkRequest (lit "POST") (lit "/") (lit "x=1"))).header = [] :=
  ⟨by decide,
   ((C7_handler_frame quote.Hello (mkRequest (lit "POST") (lit "/") (lit "x=1"))
      (mkRequest (lit "GET") (lit "/") [])).2.2 (main quote.Hello freeEnv) (by decide)).2.1,
   ((C7_handler_frame quote.Hello (mkRequest (lit "POST") (lit "/") (lit "x=1"))
      (mkRequest (lit "GET") (lit "/") [])).2.1
      (http.response.new (mkRequest (lit "POST") (lit "/") (lit "x=1")))).1⟩

/-- C4, as stated, fails: `GET /` is answered with status 200 and `GET /a/../b`
with status 301, so two requests need not both get status 200. -/
theorem C4_status_counterexample :
    (reply (main quote.Hello freeEnv) (mkRequest (lit "GET") (lit "/") [])).map
        http.Reply.status = some 200
      ∧ (reply (main quote.Hello freeEnv) (mkRequest (lit "GET") (lit "/a/../b") [])).map
        http.Reply.status = some 301 := by
  decide

/-- C4, amended: the response depends on nothing but whether the method is `HEAD`.
Whatever the greeting, whatever inputs the process has had before, as long as it
listens: any two requests whose target is not `*` and whose path is in canonical
form, with any methods, hosts, queries and bodies, are both answered by the
registered handler with status 200 and no header, with the same body if both or
neither are `HEAD` requests; the body is the formatted greeting, and empty for
`HEAD`. -/
theorem C4_response_independent (hello : GoString) (env : Env) (history : List Input)
    (r1 r2 : http.Request)
    (hlisten : (run (main hello env) history).state = State.Listening)
    (huri1 : r1.RequestURI ≠ lit "*") (hclean1 : http.cleanPath r1.Path = r1.Path)
    (huri2 : r2.RequestURI ≠ lit "*") (hclean2 : http.cleanPath r2.Path = r2.Path) :
    ∃ w1 w2 : http.response,
      reply (run (main hello env) history) r1 = some (http.Reply.handled w1)
        ∧ reply (run (main hello env) history) r2 = some (http.Reply.handled w2)
        ∧ w1.status = 200 ∧ w2.status = 200
        ∧ w1.header = [] ∧ w2.header = []
        ∧ w1.body = (if r1.Method = lit "HEAD" then [] else fmt.doPrintf hello)
        ∧ w2.body = (if r2.Method = lit "HEAD" then [] else fmt.doPrintf hello)
        ∧ ((r1.Method = lit "HEAD" ↔ r2.Method = lit "HEAD") → w1.body = w2.body) := by
  have key : ∀ r : http.Request, r.RequestURI ≠ lit "*" → http.cleanPath r.Path = r.Path →
      reply (run (main hello env) history) r
        = some (http.Reply.handled
            { reqMethod := r.Method, wroteHeader := true, status := 200, header := [],
              body := if r.Method = lit "HEAD" then [] else fmt.doPrintf hello }) := by
    intro r huri hclean
    have hserve : (http.serverHandler (run (main hello env) history).mux r).1
        = http.Reply.handled
            (handler hello http.response.writer (http.response.new r) r).finishRequest := by
      rw [run_mux, main_mux]
      exact http.serverHandler_single _ pattern_eq r huri hclean
    unfold reply
    rw [hlisten]
    simp only []
    rw [hserve, handler_on_new]
  refine ⟨_, _, key r1 huri1 hclean1, key r2 huri2 hclean2, rfl, rfl, rfl, rfl, rfl, rfl, ?_⟩
  intro hiff
  by_cases h1 : r1.Method = lit "HEAD"
  · simp [h1, hiff.mp h1]
  · have h2 : r2.Method ≠ lit "HEAD" := fun h => h1 (hiff.mpr h)
    simp [h1, h2]

/-- C4 on the scenarios of the spec: after a `GET /`, the requests
`GET /anything/nested/path` and `POST /` with a body get the same response. -/
theorem C4_response_independent_witness :
    (run (main quote.Hello freeEnv)
        [Input.request (mkRequest (lit "GET") (lit "/") [])]).state = State.Listening
      ∧ ∃ w1 w2 : http.response,
        reply (run (main quote.Hello freeEnv)
            [Input.request (mkRequest (lit "GET") (lit "/") [])])
            (mkRequest (lit "GET") (lit "/anything/nested/path") [])
          = some (http.Reply.handled w1)
        ∧ reply (run (main quote.Hello freeEnv)
            [Input.request (mkRequest (lit "GET") (lit "/") [])])
            (mkRequest (lit "POST") (lit "/") (lit "arbitrary body"))
          = some (http.Reply.handled w2)
        ∧ w1.status = 200 ∧ w2.status = 200 ∧ w1.body = w2.body := by
  refine ⟨by decide, ?_⟩
  obtain ⟨w1, w2, h1, h2, s1, s2, _, _, _, _, hb⟩ :=
    C4_response_independent quote.Hello freeEnv
      [Input.request (mkRequest (lit "GET") (lit "/") [])]
      (mkRequest (lit "GET") (lit "/anything/nested/path") [])
      (mkRequest (lit "POST") (lit "/") (lit "arbitrary body"))
      (by decide) (by decide) (by decide) (by decide) (by decide)
  exact ⟨w1, w2, h1, h2, s1, s2, hb (by decide)⟩

end App
